import Mathlib

/-!
Verification of the search-and-consistency subsystem of the
`portfolio-backend` repository (FastAPI + asyncpg marketplace directory).

The development shallowly embeds the transactional layer
(`app/database/transactions.py`), the company router
(`app/routers/companies.py`), the retry wrapper (`app/utils/db_retry.py`),
the settings object (`app/config.py`) and the materialized search view
(alembic revision `c70f6d3ab4ec`) as pure Lean functions over an explicit
database state.  Machine-level details that the claims do not depend on are
abstracted as documented at each definition:

* UUIDs are modelled as `Nat` (they are only generated fresh and compared);
* timestamps are modelled as `Nat` (`now` is passed explicitly);
* PostgreSQL text search is modelled by a whitespace lexer with per-config
  stop-word lists and a crude suffix stemmer standing in for the snowball
  dictionaries; the query side and the vector side of a match use the same
  lexer, exactly as both sides go through the same PostgreSQL configuration
  in the source, so conditional matching facts are insensitive to the
  precise stemmer.  Concrete tokens used in counterexamples and witnesses
  are chosen to be fixed points of both the real and the modelled stemmers.
* `ts_rank` is modelled by a `Nat`-valued surrogate; the claims about it
  concern only the `ORDER BY rank DESC` structure, never its exact value.
-/

namespace PortfolioBackend

/-- The two PostgreSQL text-search configurations the code selects between
(`'spanish' if lang == 'es' else 'english'`). -/
inductive TsConfig
  | spanish
  | english
deriving DecidableEq, Repr

/-- Splitter behind `pySplit`, recursing over the character list (so that
it computes by kernel reduction); `acc` holds the current word reversed. -/
def splitWsAux : List Char → List Char → List String
  | [], acc => if acc.isEmpty then [] else [String.mk acc.reverse]
  | c :: cs, acc =>
      if c.isWhitespace then
        if acc.isEmpty then splitWsAux cs []
        else String.mk acc.reverse :: splitWsAux cs []
      else splitWsAux cs (c :: acc)

/-- Python `str.split()`: split on whitespace, dropping empty pieces. -/
def pySplit (s : String) : List String :=
  splitWsAux s.data []

/-- Python `str.lower()` / SQL lower-casing, over the character list. -/
def strLower (s : String) : String :=
  String.mk (s.data.map Char.toLower)

/-- Suffix test over the character list. -/
def strEndsWith (w : String) (suffixChars : List Char) : Bool :=
  List.isSuffixOf suffixChars w.data

/-- Drop `k` trailing characters. -/
def strDropRight (w : String) (k : Nat) : String :=
  String.mk (w.data.take (w.data.length - k))

/-- Character count of a string. -/
def strLen (w : String) : Nat := w.data.length

/-- A small model of the stop-word lists of the `spanish` and `english`
text-search configurations (the real lists are larger; only membership of
the tokens appearing in concrete states matters). -/
def tsStopwords : TsConfig → List String
  | .spanish => ["de", "la", "que", "el", "en", "y", "a", "los", "del", "las"]
  | .english => ["the", "a", "an", "and", "of", "in", "to", "is", "are", "this"]

/-- A crude model of the snowball stemmers: strip a common suffix.  The two
configurations deliberately differ, as the real rulesets do. -/
def stemWord : TsConfig → String → String
  | .english, w =>
      if strEndsWith w ['i', 'n', 'g'] ∧ strLen w > 5 then strDropRight w 3
      else if strEndsWith w ['s'] ∧ strLen w > 3 then strDropRight w 1
      else w
  | .spanish, w =>
      if strEndsWith w ['e', 's'] ∧ strLen w > 4 then strDropRight w 2
      else if strEndsWith w ['s'] ∧ strLen w > 3 then strDropRight w 1
      else w

/-- Normalize one token under a configuration: lowercase, drop stop words,
stem.  `none` means the token vanishes (stop word). -/
def tsLexize (cfg : TsConfig) (w : String) : Option String :=
  let lw := strLower w
  if lw ∈ tsStopwords cfg then none else some (stemWord cfg lw)

/-- Model of `to_tsvector(cfg, text)`: the list of lexemes of the text.
(The real lexer also records positions; the claims only use lexeme
membership, which `||` on tsvectors merges, modelled here by `++`.) -/
def toTsVector (cfg : TsConfig) (text : String) : List String :=
  (pySplit text).filterMap (tsLexize cfg)

/-- Model of `to_tsquery(cfg, t1 & t2 & ... & tn)` where the `ti` are the
whitespace-split terms of the user query (the code builds exactly this
string via `' & '.join(query.split())`): the normalized lexemes of the
terms.  Stop-word terms are dropped by `to_tsquery`, as in PostgreSQL. -/
def toTsQueryLexemes (cfg : TsConfig) (query : String) : List String :=
  (pySplit query).filterMap (tsLexize cfg)

/-- Model of `search_vector @@ tsquery` for an AND-only tsquery: every query
lexeme occurs in the vector.  An empty tsquery (all terms were stop words)
matches nothing, as in PostgreSQL. -/
def tsMatch (vec : List String) (qlex : List String) : Bool :=
  !qlex.isEmpty && qlex.all (fun t => vec.contains t)

/-- Surrogate, `Nat`-valued, for `ts_rank(search_vector, tsquery)`: the number
of vector lexemes hit by the query.  Only the `ORDER BY rank DESC`
structure of the code is the subject of claims, never the value itself. -/
def tsRank (vec : List String) (qlex : List String) : Nat :=
  (vec.filter (fun t => qlex.contains t)).length

/-! ## Record store rows (`alembic` initial migration `28de81bc6b20`) -/

/-- A row of `fastapi.users` (live table). -/
structure UserRow where
  uuid : Nat
  name : String
  email : String
  hashed_password : String
  created_at : Nat
deriving DecidableEq, Repr

/-- A row of `fastapi.products` (live table). -/
structure ProductRow where
  uuid : Nat
  name_es : String
  name_en : String
  created_at : Nat
deriving DecidableEq, Repr

/-- A row of `fastapi.communes` (live table). -/
structure CommuneRow where
  uuid : Nat
  name : String
  created_at : Nat
deriving DecidableEq, Repr

/-- A row of `fastapi.companies` (live table). -/
structure CompanyRow where
  uuid : Nat
  user_uuid : Nat
  product_uuid : Nat
  commune_uuid : Nat
  name : String
  description_es : String
  description_en : String
  address : String
  phone : String
  email : String
  image_url : String
  created_at : Nat
  updated_at : Nat
deriving DecidableEq, Repr

/-- A row of a `*_deleted` shadow table: the same columns as the live row
plus the `deleted_at` timestamp the server default `now()` fills in. -/
structure Archived (α : Type) where
  row : α
  deleted_at : Nat
deriving DecidableEq, Repr

/-- A row of the materialized view `fastapi.company_search` (alembic
revision `c70f6d3ab4ec`).  Note the single `search_vector` column. -/
structure SearchRow where
  company_id : Nat
  company_name : String
  company_description_es : String
  company_description_en : String
  address : String
  company_email : String
  product_name_es : String
  product_name_en : String
  user_name : String
  user_email : String
  commune_name : String
  search_vector : List String
deriving DecidableEq, Repr

/-- The whole database: the four live tables, their shadow tables, and the
stored contents of the materialized view (stale until refreshed). -/
structure DBState where
  users : List UserRow
  products : List ProductRow
  communes : List CommuneRow
  companies : List CompanyRow
  users_deleted : List (Archived UserRow)
  products_deleted : List (Archived ProductRow)
  communes_deleted : List (Archived CommuneRow)
  companies_deleted : List (Archived CompanyRow)
  company_search : List SearchRow
deriving DecidableEq, Repr

/-- SQL `coalesce(x, '')` over a `LEFT JOIN` result. -/
def coalesceStr (o : Option String) : String := o.getD ""

/-- The Spanish-config source text of the view's `to_tsvector('spanish', ...)`:
company name, Spanish description, Spanish product name, commune name,
user name, user email, space-joined as in the migration SQL. -/
def spanishDoc (c : CompanyRow) (p : Option ProductRow) (u : Option UserRow)
    (cm : Option CommuneRow) : String :=
  c.name ++ " " ++ c.description_es ++ " " ++
  coalesceStr (p.map ProductRow.name_es) ++ " " ++
  coalesceStr (cm.map CommuneRow.name) ++ " " ++
  coalesceStr (u.map UserRow.name) ++ " " ++
  coalesceStr (u.map UserRow.email)

/-- The English-config source text of the view's `to_tsvector('english', ...)`:
company name, English description, English product name. -/
def englishDoc (c : CompanyRow) (p : Option ProductRow) : String :=
  c.name ++ " " ++ c.description_en ++ " " ++
  coalesceStr (p.map ProductRow.name_en)

/-- The view row derived for one company: the `SELECT` of the materialized
view, with `LEFT JOIN`s to products, users and communes by uuid.  The
`search_vector` column is the `||`-concatenation of the Spanish-config
vector and the English-config vector -- a single merged column. -/
def searchRowOf (s : DBState) (c : CompanyRow) : SearchRow :=
  let p := s.products.find? (fun r => r.uuid == c.product_uuid)
  let u := s.users.find? (fun r => r.uuid == c.user_uuid)
  let cm := s.communes.find? (fun r => r.uuid == c.commune_uuid)
  { company_id := c.uuid
    company_name := c.name
    company_description_es := c.description_es
    company_description_en := c.description_en
    address := c.address
    company_email := c.email
    product_name_es := coalesceStr (p.map ProductRow.name_es)
    product_name_en := coalesceStr (p.map ProductRow.name_en)
    user_name := coalesceStr (u.map UserRow.name)
    user_email := coalesceStr (u.map UserRow.email)
    commune_name := coalesceStr (cm.map CommuneRow.name)
    search_vector :=
      toTsVector .spanish (spanishDoc c p u cm) ++
      toTsVector .english (englishDoc c p) }

/-- The full recomputation `REFRESH MATERIALIZED VIEW fastapi.company_search`
performs: one view row per live company. -/
def companySearchView (s : DBState) : List SearchRow :=
  s.companies.map (searchRowOf s)

/-! ## Errors

The Python layer signals failures with exception classes; the embedding
mirrors them as constructors.  String payloads reproduce the Python
messages, except that the single-quote characters some f-strings put
around names are left out of the Lean string literals. -/

/-- Exceptions raised by the embedded code paths. -/
inductive Err
  | valueError (msg : String)
  | permissionError (msg : String)
  | uniqueViolation (constraintName : String)
  | nameError (name : String)
  | attributeError (attr : String)
  | keyError (key : String)
  | httpException (statusCode : Nat) (detail : String)
  | injectedFailure
deriving DecidableEq, Repr

/-- Message of the `ValueError` for a reference-blocked product delete
(`transactions.py` lines 452-456), count interpolated as in the f-string. -/
def blockedProductMsg (name_en : String) (count : Nat) : String :=
  "Cannot delete product " ++ name_en ++ ". " ++ toString count ++
  " company(ies) are still using this product."

/-- Message of the `ValueError` for a reference-blocked commune delete
(`transactions.py` lines 603-607). -/
def blockedCommuneMsg (name : String) (count : Nat) : String :=
  "Cannot delete commune " ++ name ++ ". " ++ toString count ++
  " company(ies) are still located in this commune."

/-- Message of the `ValueError` for the one-company-per-user pre-check
(`transactions.py` lines 760-764). -/
def alreadyHasCompanyMsg : String :=
  "You already have a company. Each user can only create one company. " ++
  "Please update your existing company instead."

/-! ## `app/config.py` and `app/utils/db_retry.py` -/

/-- The fields declared on the `Settings` class in `app/config.py`
(pydantic `BaseSettings`; undeclared attributes do not exist on the
instantiated `settings` object). -/
def settingsDeclaredFields : List String :=
  ["database_url", "db_pool_min_size", "db_pool_max_size",
   "db_pool_max_queries", "db_pool_max_inactive", "db_timeout",
   "db_command_timeout", "db_server_timeout", "db_ssl_mode",
   "db_ssl_cert_path", "db_ssl_key_path", "redis_url", "redis_timeout",
   "cache_ttl", "redis_ssl", "secret_key", "algorithm",
   "access_token_expire_minutes", "enable_content_moderation",
   "max_file_size", "allowed_file_types", "api_v1_prefix", "project_name",
   "debug", "allowed_origins", "db_health_check_interval",
   "db_slow_query_threshold", "db_retry_attempts",
   "db_retry_wait_multiplier", "db_retry_max_wait"]

/-- The value of `settings.admin_email`: `none`, because `Settings`
declares no `admin_email` field (see `settingsDeclaredFields`), so the
attribute does not exist on the `settings` object. -/
def settingsAdminEmail : Option String := none

/-- Model of `DB.is_admin` (`transactions.py` line 1114) with the configured admin
email passed explicitly: `email.lower() == settings.admin_email.lower()`. -/
def is_admin (adminEmail email : String) : Bool :=
  strLower email == strLower adminEmail

/-- Model of `DB.is_admin` as it executes against the real `settings` object:
evaluating `settings.admin_email` raises `AttributeError` when the
attribute is absent. -/
def is_admin_run (email : String) : Except Err Bool :=
  match settingsAdminEmail with
  | none => .error (.attributeError "admin_email")
  | some adminEmail => .ok (is_admin adminEmail email)

/-- The asyncpg exception classes named in `TRANSIENT_ERRORS`
(`db_retry.py` lines 17-26). -/
inductive PgErr
  | connectionDoesNotExist
  | connectionFailure
  | interfaceFault
  | internalServer
  | tooManyConnections
  | deadlockDetected
  | serializationFailure
deriving DecidableEq, Repr

/-- Model of `TRANSIENT_ERRORS`: the tuple of exception classes eligible for retry. -/
def TRANSIENT_ERRORS : List PgErr :=
  [.connectionDoesNotExist, .connectionFailure, .interfaceFault,
   .internalServer, .tooManyConnections, .deadlockDetected,
   .serializationFailure]

/-- The names bound at module level in `app/utils/db_retry.py`: its imports
(`asyncpg`, `structlog`, the five tenacity names, the typing names,
`settings`) and its own definitions.  `logging` is not among them -- the
module never imports it. -/
def dbRetryModuleNames : List String :=
  ["asyncpg", "structlog", "retry", "stop_after_attempt",
   "wait_exponential", "retry_if_exception_type", "before_sleep_log",
   "Callable", "Any", "TypeVar", "Awaitable", "settings", "logger", "T",
   "TRANSIENT_ERRORS", "db_retry", "execute_with_retry"]

/-- The tenacity policy `db_retry` intends to build. -/
structure RetryPolicy where
  stop_attempts : Nat
  retry_on : List PgErr
  reraise : Bool
deriving DecidableEq, Repr

/-- Model of `db_retry(stop_after, ...)` (`db_retry.py` lines 28-40).  The body
evaluates `retry(stop=..., wait=..., retry=...,
before_sleep=before_sleep_log(logger, logging.WARNING), reraise=True)`;
evaluating the `before_sleep` argument resolves the module-level name
`logging`, which raises `NameError` when the name is unbound. -/
def db_retry (stop_after : Nat) : Except Err RetryPolicy :=
  if dbRetryModuleNames.contains "logging" then
    .ok { stop_attempts := stop_after, retry_on := TRANSIENT_ERRORS,
          reraise := true }
  else
    .error (.nameError "logging")

/-! ## Write statements and transactions

Every destructive operation in `transactions.py` first runs its `SELECT`
guards and then issues a sequence of write statements inside one
transaction (`BEGIN ... COMMIT`, with `ROLLBACK` on any exception).  The
embedding computes the statement sequence from the guards (all guards
precede all writes in every operation of the source) and executes it
through a runner that can inject a failure before any statement, modelling
a mid-transaction fault. -/

/-- One SQL write statement issued by the transactional layer. -/
inductive Stmt
  | insertUserDeleted (r : Archived UserRow)
  | deleteUserByUuid (uuid : Nat)
  | insertProductDeleted (r : Archived ProductRow)
  | deleteProductByUuid (uuid : Nat)
  | insertCommuneDeleted (r : Archived CommuneRow)
  | deleteCommuneByUuid (uuid : Nat)
  | insertCompanyDeleted (r : Archived CompanyRow)
  | deleteCompanyByUuid (uuid : Nat)
  | deleteCompaniesByUser (user_uuid : Nat)
  | insertCompany (r : CompanyRow)
  | refreshView
deriving DecidableEq, Repr

/-- Execute one statement.  `insertCompany` enforces the
`uq_companies_user_uuid` unique constraint (alembic revision
`d9674160b661`); shadow-table inserts append (their primary keys cannot
collide because a uuid is archived at most once). -/
def applyStmt (st : Stmt) (s : DBState) : Except Err DBState :=
  match st with
  | .insertUserDeleted r => .ok { s with users_deleted := s.users_deleted ++ [r] }
  | .deleteUserByUuid u => .ok { s with users := s.users.filter (fun r => r.uuid != u) }
  | .insertProductDeleted r => .ok { s with products_deleted := s.products_deleted ++ [r] }
  | .deleteProductByUuid u => .ok { s with products := s.products.filter (fun r => r.uuid != u) }
  | .insertCommuneDeleted r => .ok { s with communes_deleted := s.communes_deleted ++ [r] }
  | .deleteCommuneByUuid u => .ok { s with communes := s.communes.filter (fun r => r.uuid != u) }
  | .insertCompanyDeleted r => .ok { s with companies_deleted := s.companies_deleted ++ [r] }
  | .deleteCompanyByUuid u => .ok { s with companies := s.companies.filter (fun r => r.uuid != u) }
  | .deleteCompaniesByUser u => .ok { s with companies := s.companies.filter (fun r => r.user_uuid != u) }
  | .insertCompany r =>
      if s.companies.any (fun c => c.user_uuid == r.user_uuid) then
        .error (.uniqueViolation "uq_companies_user_uuid")
      else
        .ok { s with companies := s.companies ++ [r] }
  | .refreshView => .ok { s with company_search := companySearchView s }

/-- Execute statements in order, starting at index `i`; `crashAt = some k`
injects a failure immediately before the statement with index `k`. -/
def runStmts (crashAt : Option Nat) : Nat → List Stmt → DBState → Except Err DBState
  | _, [], s => .ok s
  | i, st :: rest, s =>
      if crashAt == some i then .error .injectedFailure
      else
        match applyStmt st s with
        | .error e => .error e
        | .ok s' => runStmts crashAt (i + 1) rest s'

/-- The uncommitted state after the first `k` statements have executed
successfully (what a mid-transaction observer inside the transaction would
see); used only to state the insert-before-delete ordering property. -/
def runPrefix : Nat → List Stmt → DBState → Except Err DBState
  | 0, _, s => .ok s
  | _ + 1, [], s => .ok s
  | k + 1, st :: rest, s =>
      match applyStmt st s with
      | .error e => .error e
      | .ok s' => runPrefix k rest s'

/-- The `transaction` context manager of `transactions.py`: run the planned
statements; on success the writes commit, on any exception the connection
rolls back to the pre-transaction state and the exception propagates. -/
def runOpTx {α : Type} (crashAt : Option Nat) (s : DBState)
    (planned : Except Err (List Stmt × α)) : DBState × Except Err α :=
  match planned with
  | .error e => (s, .error e)
  | .ok (stmts, a) =>
      match runStmts crashAt 0 stmts s with
      | .ok s' => (s', .ok a)
      | .error e => (s, .error e)

/-! ## Transactional operations (`app/database/transactions.py`) -/

/-- Return value of the user-cascade deletes (`transactions.py` lines
163-167 and 301-305). -/
structure CascadeResult where
  user_uuid : String
  email : String
  companies_deleted : Nat
deriving DecidableEq, Repr

/-- Guards and write plan of `DB.delete_user_by_uuid` (lines 88-167):
fetch the user (NotFound otherwise), fetch their companies, then -- all in
one SERIALIZABLE transaction -- archive each company, bulk-delete the
companies, refresh the view (only when companies existed), archive the
user, delete the user. -/
def delete_user_plan (s : DBState) (user_uuid : Nat) (now : Nat)
    (withRefresh : Bool) : Except Err (List Stmt × CascadeResult) :=
  match s.users.find? (fun r => r.uuid == user_uuid) with
  | none => .error (.valueError ("User with UUID " ++ toString user_uuid ++ " not found"))
  | some user =>
      let companies := s.companies.filter (fun c => c.user_uuid == user_uuid)
      let companyStmts :=
        if companies.isEmpty then []
        else
          companies.map (fun c => Stmt.insertCompanyDeleted ⟨c, now⟩) ++
          [Stmt.deleteCompaniesByUser user_uuid] ++
          (if withRefresh then [Stmt.refreshView] else [])
      .ok (companyStmts ++
             [Stmt.insertUserDeleted ⟨user, now⟩, Stmt.deleteUserByUuid user_uuid],
           { user_uuid := toString user_uuid, email := user.email,
             companies_deleted := companies.length })

/-- Model of `DB.delete_user_by_uuid` (lines 88-167); refreshes the view inside the
transaction when companies were deleted. -/
def delete_user_by_uuid (crashAt : Option Nat) (now : Nat) (s : DBState)
    (user_uuid : Nat) : DBState × Except Err CascadeResult :=
  runOpTx crashAt s (delete_user_plan s user_uuid now true)

/-- Model of `DB.admin_delete_user_by_uuid` (lines 203-305): permission check
against the configured admin email, then the same cascade (this variant
issues no view refresh). -/
def admin_delete_user_by_uuid (crashAt : Option Nat) (now : Nat)
    (adminEmail : String) (s : DBState) (user_uuid : Nat)
    (admin_email : String) : DBState × Except Err CascadeResult :=
  if ¬ is_admin adminEmail admin_email then
    (s, .error (.permissionError
      ("Only admin users can delete other users. " ++
       "Contact acos2014600836@gmail.com for assistance.")))
  else
    runOpTx crashAt s (delete_user_plan s user_uuid now false)

/-- Return value of `DB.delete_product_by_uuid` (lines 471-475). -/
structure ProductDeleteResult where
  uuid : String
  name_es : String
  name_en : String
deriving DecidableEq, Repr

/-- Guards and write plan of `DB.delete_product_by_uuid` (lines 436-475):
fetch the product (NotFound otherwise), count live companies referencing
it, fail when the count is positive, otherwise archive then delete. -/
def delete_product_plan (s : DBState) (product_uuid : Nat) (now : Nat) :
    Except Err (List Stmt × ProductDeleteResult) :=
  match s.products.find? (fun r => r.uuid == product_uuid) with
  | none => .error (.valueError ("Product with UUID " ++ toString product_uuid ++ " not found"))
  | some product =>
      let company_count := (s.companies.filter (fun c => c.product_uuid == product_uuid)).length
      if company_count > 0 then
        .error (.valueError (blockedProductMsg product.name_en company_count))
      else
        .ok ([Stmt.insertProductDeleted ⟨product, now⟩,
              Stmt.deleteProductByUuid product_uuid],
             { uuid := toString product.uuid, name_es := product.name_es,
               name_en := product.name_en })

/-- Model of `DB.delete_product_by_uuid` (lines 423-475): admin check, then the
reference-blocked archive-and-remove. -/
def delete_product_by_uuid (crashAt : Option Nat) (now : Nat)
    (adminEmail : String) (s : DBState) (product_uuid : Nat)
    (user_email : String) : DBState × Except Err ProductDeleteResult :=
  if ¬ is_admin adminEmail user_email then
    (s, .error (.permissionError
      ("Only admin users can delete products. " ++
       "Contact acos2014600836@gmail.com for assistance.")))
  else
    runOpTx crashAt s (delete_product_plan s product_uuid now)

/-- Return value of `DB.delete_commune_by_uuid` (lines 622-625). -/
structure CommuneDeleteResult where
  uuid : String
  name : String
deriving DecidableEq, Repr

/-- Guards and write plan of `DB.delete_commune_by_uuid` (lines 587-625). -/
def delete_commune_plan (s : DBState) (commune_uuid : Nat) (now : Nat) :
    Except Err (List Stmt × CommuneDeleteResult) :=
  match s.communes.find? (fun r => r.uuid == commune_uuid) with
  | none => .error (.valueError ("Commune with UUID " ++ toString commune_uuid ++ " not found"))
  | some commune =>
      let company_count := (s.companies.filter (fun c => c.commune_uuid == commune_uuid)).length
      if company_count > 0 then
        .error (.valueError (blockedCommuneMsg commune.name company_count))
      else
        .ok ([Stmt.insertCommuneDeleted ⟨commune, now⟩,
              Stmt.deleteCommuneByUuid commune_uuid],
             { uuid := toString commune.uuid, name := commune.name })

/-- Model of `DB.delete_commune_by_uuid` (lines 574-625). -/
def delete_commune_by_uuid (crashAt : Option Nat) (now : Nat)
    (adminEmail : String) (s : DBState) (commune_uuid : Nat)
    (user_email : String) : DBState × Except Err CommuneDeleteResult :=
  if ¬ is_admin adminEmail user_email then
    (s, .error (.permissionError
      ("Only admin users can delete communes. " ++
       "Contact acos2014600836@gmail.com for assistance.")))
  else
    runOpTx crashAt s (delete_commune_plan s commune_uuid now)

/-- Row shape of `DB.get_company_by_uuid` (lines 631-664): the company
columns plus `LEFT JOIN`ed user, product and commune names (NULL, i.e.
`none`, when the joined row is absent). -/
structure CompanyJoined where
  uuid : Nat
  user_uuid : Nat
  product_uuid : Nat
  commune_uuid : Nat
  name : String
  description_es : String
  description_en : String
  address : String
  phone : String
  email : String
  image_url : String
  created_at : Nat
  updated_at : Nat
  user_name : Option String
  user_email : Option String
  product_name_es : Option String
  product_name_en : Option String
  commune_name : Option String
deriving DecidableEq, Repr

/-- Model of `DB.get_company_by_uuid` (lines 631-664). -/
def get_company_by_uuid (s : DBState) (company_uuid : Nat) : Option CompanyJoined :=
  (s.companies.find? (fun c => c.uuid == company_uuid)).map (fun c =>
    let u := s.users.find? (fun r => r.uuid == c.user_uuid)
    let p := s.products.find? (fun r => r.uuid == c.product_uuid)
    let cm := s.communes.find? (fun r => r.uuid == c.commune_uuid)
    { uuid := c.uuid, user_uuid := c.user_uuid, product_uuid := c.product_uuid,
      commune_uuid := c.commune_uuid, name := c.name,
      description_es := c.description_es, description_en := c.description_en,
      address := c.address, phone := c.phone, email := c.email,
      image_url := c.image_url, created_at := c.created_at,
      updated_at := c.updated_at,
      user_name := u.map UserRow.name, user_email := u.map UserRow.email,
      product_name_es := p.map ProductRow.name_es,
      product_name_en := p.map ProductRow.name_en,
      commune_name := cm.map CommuneRow.name })

/-- Model of `DB.create_company` (lines 739-807): inside one transaction, pre-check
that the owner has no live company, check the product and commune exist,
insert the row (the insert is additionally guarded by the
`uq_companies_user_uuid` constraint), then return the joined row -- which,
as in the source, is whatever `get_company_by_uuid` yields.  The fresh
`gen_random_uuid()` and `now()` defaults are passed in as `newUuid`/`now`. -/
def create_company (crashAt : Option Nat) (now newUuid : Nat) (s : DBState)
    (user_uuid product_uuid commune_uuid : Nat)
    (name description_es description_en address phone email image_url : String) :
    DBState × Except Err (Option CompanyJoined) :=
  if s.companies.any (fun c => c.user_uuid == user_uuid) then
    (s, .error (.valueError alreadyHasCompanyMsg))
  else if ¬ s.products.any (fun p => p.uuid == product_uuid) then
    (s, .error (.valueError ("Product with UUID " ++ toString product_uuid ++ " does not exist")))
  else if ¬ s.communes.any (fun c => c.uuid == commune_uuid) then
    (s, .error (.valueError ("Commune with UUID " ++ toString commune_uuid ++ " does not exist")))
  else
    let row : CompanyRow :=
      { uuid := newUuid, user_uuid := user_uuid, product_uuid := product_uuid,
        commune_uuid := commune_uuid, name := name,
        description_es := description_es, description_en := description_en,
        address := address, phone := phone, email := email,
        image_url := image_url, created_at := now, updated_at := now }
    match runStmts crashAt 0 [Stmt.insertCompany row] s with
    | .error e => (s, .error e)
    | .ok s' => (s', .ok (get_company_by_uuid s' newUuid))

/-- Model of `DB.delete_company_by_uuid` (lines 918-963): select the company by id
AND owner; when absent return `False` without error, otherwise archive
then delete inside the transaction and return `True`. -/
def delete_company_by_uuid (crashAt : Option Nat) (now : Nat) (s : DBState)
    (company_uuid user_uuid : Nat) : DBState × Except Err Bool :=
  match s.companies.find? (fun c => c.uuid == company_uuid && c.user_uuid == user_uuid) with
  | none => (s, .ok false)
  | some company =>
      match runStmts crashAt 0 [Stmt.insertCompanyDeleted ⟨company, now⟩,
                                Stmt.deleteCompanyByUuid company_uuid] s with
      | .ok s' => (s', .ok true)
      | .error e => (s, .error e)

/-- Return value of `DB.admin_delete_company_by_uuid` (lines 1104-1107). -/
structure CompanyDeleteResult where
  uuid : String
  name : String
deriving DecidableEq, Repr

/-- Model of `DB.admin_delete_company_by_uuid` (lines 1037-1107): admin check, then
archive-and-remove by id regardless of owner. -/
def admin_delete_company_by_uuid (crashAt : Option Nat) (now : Nat)
    (adminEmail : String) (s : DBState) (company_uuid : Nat)
    (admin_email : String) : DBState × Except Err CompanyDeleteResult :=
  if ¬ is_admin adminEmail admin_email then
    (s, .error (.permissionError
      ("Only admin users can delete any company. " ++
       "Contact acos2014600836@gmail.com for assistance.")))
  else
    match s.companies.find? (fun c => c.uuid == company_uuid) with
    | none => (s, .error (.valueError ("Company with UUID " ++ toString company_uuid ++ " not found")))
    | some company =>
        runOpTx crashAt s
          (.ok ([Stmt.insertCompanyDeleted ⟨company, now⟩,
                 Stmt.deleteCompanyByUuid company_uuid],
                { uuid := toString company.uuid, name := company.name }))

/-! ## Full-text search (`DB.search_companies`, lines 965-1035; the public
router endpoint at `routers/companies.py` lines 35-111 runs the identical
SQL and row mapping) -/

/-- One element of the search response. -/
structure SearchResult where
  uuid : Nat
  name : String
  description : String
  address : String
  email : String
  product_name : String
  commune_name : String
  relevance_score : Nat
deriving DecidableEq, Repr

/-- The Python row mapping `row[f"company_description_{lang}"]` /
`row[f"product_name_{lang}"]`: a `KeyError` for any language other than
`es`/`en`. -/
def searchRowToResult (lang : String) (qlex : List String) (r : SearchRow) :
    Except Err SearchResult :=
  match (if lang == "es" then .ok r.company_description_es
         else if lang == "en" then .ok r.company_description_en
         else .error (.keyError ("company_description_" ++ lang)) : Except Err String),
        (if lang == "es" then .ok r.product_name_es
         else if lang == "en" then .ok r.product_name_en
         else .error (.keyError ("product_name_" ++ lang)) : Except Err String) with
  | .ok descr, .ok prod =>
      .ok { uuid := r.company_id, name := r.company_name, description := descr,
            address := r.address, email := r.company_email,
            product_name := prod, commune_name := r.commune_name,
            relevance_score := tsRank r.search_vector qlex }
  | .error e, _ => .error e
  | _, .error e => .error e

/-- Sort descending by `key` (`ORDER BY rank DESC`). -/
def sortDescBy {α : Type} (key : α → Nat) (l : List α) : List α :=
  List.insertionSort (fun a b => key b ≤ key a) l

/-- The Python result-building loop (`for row in rows: results.append(...)`)
with a possibly failing body: collect the outputs in order, propagating the
first exception. -/
def mapExcept {α β : Type} (f : α → Except Err β) : List α → Except Err (List β)
  | [] => .ok []
  | a :: l =>
      match f a with
      | .error e => .error e
      | .ok b =>
          match mapExcept f l with
          | .error e => .error e
          | .ok bs => .ok (b :: bs)

/-- Model of `DB.search_companies` (lines 965-1035): select the language
configuration (`'spanish' if lang == 'es' else 'english'`), AND-join the
whitespace-split terms into a tsquery (`to_tsquery` on the empty string
raises, and drops stop-word terms), keep the stored view rows whose single
`search_vector` matches every term, order by `ts_rank` descending, apply
`LIMIT`/`OFFSET`, and map each row into the response shape with the
language-suffixed description and product-name columns. -/
def search_companies (s : DBState) (query : String) (lang : String)
    (limit : Nat) (offset : Nat) : Except Err (List SearchResult) :=
  let lang_config := if lang == "es" then TsConfig.spanish else TsConfig.english
  if (pySplit query).isEmpty then .error (.valueError "syntax error in tsquery")
  else
    let qlex := toTsQueryLexemes lang_config query
    let matched := s.company_search.filter (fun r => tsMatch r.search_vector qlex)
    let ranked := sortDescBy (fun r => tsRank r.search_vector qlex) matched
    mapExcept (searchRowToResult lang qlex) ((ranked.drop offset).take limit)

/-! ## Company router endpoints (`app/routers/companies.py`) -/

/-- Model of the `create_company` endpoint (lines 236-326): verify the product and
commune exist (HTTP 400 otherwise), insert the company (no
one-company-per-user pre-check here; a constraint violation surfaces as
the generic HTTP 500), `REFRESH MATERIALIZED VIEW`, then fetch and return
the joined row.  The refresh completes before the success return. -/
def router_create_company (now newUuid : Nat) (s : DBState)
    (user_uuid product_uuid commune_uuid : Nat)
    (name description_es description_en address phone email image_url : String) :
    DBState × Except Err (Option CompanyJoined) :=
  if ¬ s.products.any (fun p => p.uuid == product_uuid) then
    (s, .error (.httpException 400 ("Product with UUID " ++ toString product_uuid ++ " does not exist")))
  else if ¬ s.communes.any (fun c => c.uuid == commune_uuid) then
    (s, .error (.httpException 400 ("Commune with UUID " ++ toString commune_uuid ++ " does not exist")))
  else
    let row : CompanyRow :=
      { uuid := newUuid, user_uuid := user_uuid, product_uuid := product_uuid,
        commune_uuid := commune_uuid, name := name,
        description_es := description_es, description_en := description_en,
        address := address, phone := phone, email := email,
        image_url := image_url, created_at := now, updated_at := now }
    match applyStmt (.insertCompany row) s with
    | .error _ => (s, .error (.httpException 500 "Failed to create company"))
    | .ok s1 =>
        let s2 := { s1 with company_search := companySearchView s1 }
        (s2, .ok (get_company_by_uuid s2 newUuid))

/-- Model of the `delete_company` endpoint (lines 498-532): call
`DB.delete_company_by_uuid`; a `False` result becomes HTTP 404 (detail
paraphrased from "Company not found or you do not have permission to
delete it"); on `True`, `REFRESH MATERIALIZED VIEW` runs before the
success response. -/
def router_delete_company (now : Nat) (s : DBState)
    (company_uuid user_uuid : Nat) : DBState × Except Err String :=
  match delete_company_by_uuid none now s company_uuid user_uuid with
  | (s1, .ok true) =>
      let s2 := { s1 with company_search := companySearchView s1 }
      (s2, .ok (toString company_uuid))
  | (s1, .ok false) =>
      (s1, .error (.httpException 404
        "Company not found or you do not have permission to delete it"))
  | (s1, .error _) =>
      (s1, .error (.httpException 500 "Failed to delete company"))

/-! ## Derived notions used to state the claims -/

/-- Run a statement list with no injected failure: the reference semantics
of a transaction body that commits. -/
def applyAll : List Stmt → DBState → Except Err DBState
  | [], s => .ok s
  | st :: rest, s =>
      match applyStmt st s with
      | .error e => .error e
      | .ok s' => applyAll rest s'

/-- The successful row mapping of `search_companies` for the two
supported languages (`searchRowToResult` returns exactly this when
`lang` is `es` or `en`). -/
def searchResultOf (lang : String) (qlex : List String) (r : SearchRow) :
    SearchResult :=
  { uuid := r.company_id
    name := r.company_name
    description := if lang == "es" then r.company_description_es
                   else r.company_description_en
    address := r.address
    email := r.company_email
    product_name := if lang == "es" then r.product_name_es
                    else r.product_name_en
    commune_name := r.commune_name
    relevance_score := tsRank r.search_vector qlex }

/-- The one-company-per-user invariant: live company rows have pairwise
distinct owners. -/
def OneCompanyPerUser (s : DBState) : Prop :=
  s.companies.Pairwise (fun a b => a.user_uuid ≠ b.user_uuid)

/-- The state change a successful user-cascade delete performs: the user
row moved verbatim (plus `deleted_at`) to its shadow table, every company
of the user moved verbatim to its shadow table, no live company of the
user remains, and no other table is touched. -/
def CascadePost (s s' : DBState) (user : UserRow) (user_uuid now : Nat) : Prop :=
  s'.users = s.users.filter (fun r => r.uuid != user_uuid) ∧
  s'.users_deleted = s.users_deleted ++ [⟨user, now⟩] ∧
  s'.companies = s.companies.filter (fun c => c.user_uuid != user_uuid) ∧
  s'.companies_deleted = s.companies_deleted ++
    (s.companies.filter (fun c => c.user_uuid == user_uuid)).map
      (fun c => ⟨c, now⟩) ∧
  s'.products = s.products ∧
  s'.products_deleted = s.products_deleted ∧
  s'.communes = s.communes ∧
  s'.communes_deleted = s.communes_deleted

/-! ## Concrete rows and states used by witnesses and counterexamples -/

/-- Witness user; the name token is left unchanged by both the real and
the modelled stemmers. -/
def wUser : UserRow := ⟨10, "zorbak", "z@q.io", "pw", 1⟩

/-- Witness user without a company. -/
def wUser2 : UserRow := ⟨11, "lisa", "l@q.io", "pw", 1⟩

/-- Witness product, referenced by `wCompany`. -/
def wProduct : ProductRow := ⟨1, "pan", "bread", 1⟩

/-- Witness product with no referencing company. -/
def wProduct2 : ProductRow := ⟨3, "flor", "bloom", 1⟩

/-- Witness commune, referenced by `wCompany`. -/
def wCommune : CommuneRow := ⟨2, "springfield", 1⟩

/-- Witness commune with no referencing company. -/
def wCommune2 : CommuneRow := ⟨4, "shelbyville", 1⟩

/-- Witness company, owned by `wUser`, under `wProduct`/`wCommune`. -/
def wCompany : CompanyRow :=
  ⟨5, 10, 1, 2, "joes", "rico", "tasty", "addr", "123", "co@x.io", "img", 1, 1⟩

/-- Witness live tables before the view is refreshed. -/
def wBase : DBState :=
  ⟨[wUser, wUser2], [wProduct, wProduct2], [wCommune, wCommune2], [wCompany],
   [], [], [], [], []⟩

/-- Witness state with the materialized view freshly refreshed. -/
def wState : DBState := { wBase with company_search := companySearchView wBase }

/-- Witness live tables before `wCompany` is created. -/
def wBase0 : DBState :=
  ⟨[wUser, wUser2], [wProduct, wProduct2], [wCommune, wCommune2], [],
   [], [], [], [], []⟩

/-- Witness state before `wCompany` is created, view refreshed. -/
def wState0 : DBState := { wBase0 with company_search := companySearchView wBase0 }

/-! ## Helper lemmas -/

/-- A transaction body either hits an error (injected or raised by a
statement) or computes exactly what the failure-free semantics computes. -/
theorem runStmts_cases (crashAt : Option Nat) (stmts : List Stmt) :
    ∀ (i : Nat) (s : DBState),
      (∃ e, runStmts crashAt i stmts s = .error e) ∨
        runStmts crashAt i stmts s = applyAll stmts s := by
  induction stmts with
  | nil => intro i s; exact Or.inr rfl
  | cons st rest ih =>
      intro i s
      by_cases hc : crashAt = some i
      · exact Or.inl ⟨.injectedFailure, by simp [runStmts, hc]⟩
      · have hc' : (crashAt == some i) = false := beq_eq_false_iff_ne.mpr hc
        cases hap : applyStmt st s with
        | error e =>
            exact Or.inl ⟨e, by simp [runStmts, hc', hap]⟩
        | ok s' =>
            have hrun : runStmts crashAt i (st :: rest) s =
                runStmts crashAt (i + 1) rest s' := by
              simp [runStmts, hc', hap]
            have happ : applyAll (st :: rest) s = applyAll rest s' := by
              simp [applyAll, hap]
            rcases ih (i + 1) s' with ⟨e, he⟩ | heq
            · exact Or.inl ⟨e, by rw [hrun, he]⟩
            · exact Or.inr (by rw [hrun, heq, happ])

/-- A planned transaction either rolls back (post-state is the input
state) or commits the failure-free result of its statement list. -/
theorem runOpTx_cases {α : Type} (crashAt : Option Nat) (s : DBState)
    (stmts : List Stmt) (a : α) :
    (∃ e, runOpTx crashAt s (.ok (stmts, a)) = (s, .error e)) ∨
      ∃ s', applyAll stmts s = .ok s' ∧
        runOpTx crashAt s (.ok (stmts, a)) = (s', .ok a) := by
  rcases runStmts_cases crashAt stmts 0 s with ⟨e, he⟩ | heq
  · exact Or.inl ⟨e, by simp [runOpTx, he]⟩
  · cases hap : applyAll stmts s with
    | error e => exact Or.inl ⟨e, by simp [runOpTx, heq, hap]⟩
    | ok s' => exact Or.inr ⟨s', rfl, by simp [runOpTx, heq, hap]⟩

/-- Running statements with no injected failure is the failure-free
semantics. -/
theorem runStmts_none (stmts : List Stmt) :
    ∀ (i : Nat) (s : DBState), runStmts none i stmts s = applyAll stmts s := by
  induction stmts with
  | nil => intro i s; rfl
  | cons st rest ih =>
      intro i s
      cases hap : applyStmt st s with
      | error e => simp [runStmts, applyAll, hap]
      | ok s' => simp [runStmts, applyAll, hap, ih]

/-- A failure-free planned transaction commits its statement list. -/
theorem runOpTx_none {α : Type} (s : DBState) (stmts : List Stmt) (a : α)
    (s' : DBState) (h : applyAll stmts s = .ok s') :
    runOpTx none s (.ok (stmts, a)) = (s', .ok a) := by
  simp [runOpTx, runStmts_none, h]

/-- Batched shadow-table inserts of the cascade: they always succeed and
append the archived rows in order. -/
theorem applyAll_insert_shadow (now : Nat) (rest : List Stmt) :
    ∀ (cs : List CompanyRow) (s : DBState),
      applyAll ((cs.map fun c => Stmt.insertCompanyDeleted ⟨c, now⟩) ++ rest) s =
        applyAll rest
          { s with companies_deleted :=
              s.companies_deleted ++ cs.map (fun c => ⟨c, now⟩) } := by
  intro cs
  induction cs with
  | nil => intro s; simp [applyAll]
  | cons c cs ih =>
      intro s
      have h1 : applyAll ((Stmt.insertCompanyDeleted ⟨c, now⟩ ::
            cs.map (fun c => Stmt.insertCompanyDeleted ⟨c, now⟩)) ++ rest) s =
          applyAll (cs.map (fun c => Stmt.insertCompanyDeleted ⟨c, now⟩) ++ rest)
            { s with companies_deleted := s.companies_deleted ++ [⟨c, now⟩] } := by
        simp [applyAll, applyStmt]
      rw [List.map_cons, h1, ih]
      congr 1
      simp [List.append_assoc]

/-- The user-cascade plan for a present user: it returns the archived
count, and its failure-free execution realizes `CascadePost`. -/
theorem cascade_plan_spec (s : DBState) (uid now : Nat) (user : UserRow)
    (wr : Bool)
    (hu : s.users.find? (fun r => r.uuid == uid) = some user) :
    ∃ stmts,
      delete_user_plan s uid now wr =
        .ok (stmts,
          ⟨toString uid, user.email,
            (s.companies.filter (fun c => c.user_uuid == uid)).length⟩) ∧
      ∃ s', applyAll stmts s = .ok s' ∧ CascadePost s s' user uid now := by
  by_cases hE : (s.companies.filter (fun c => c.user_uuid == uid)).isEmpty = true
  · have hnil : s.companies.filter (fun c => c.user_uuid == uid) = [] :=
      List.isEmpty_iff.mp hE
    refine ⟨[.insertUserDeleted ⟨user, now⟩, .deleteUserByUuid uid], ?_, ?_⟩
    · simp [delete_user_plan, hu, hE]
    · refine ⟨{ s with
          users := s.users.filter (fun r => r.uuid != uid),
          users_deleted := s.users_deleted ++ [⟨user, now⟩] }, ?_, ?_⟩
      · simp [applyAll, applyStmt]
      · have hself : s.companies.filter (fun c => c.user_uuid != uid) = s.companies := by
          refine List.filter_eq_self.mpr ?_
          intro c hc
          have hnotc := List.filter_eq_nil_iff.mp hnil c hc
          simp only [bne_iff_ne, ne_eq]
          intro heq
          exact hnotc (by simp [heq])
        refine ⟨rfl, rfl, ?_, ?_, rfl, rfl, rfl, rfl⟩
        · simp [hself]
        · simp [hnil]
  · have hne : (s.companies.filter (fun c => c.user_uuid == uid)).isEmpty = false := by
      simpa using hE
    refine ⟨((s.companies.filter (fun c => c.user_uuid == uid)).map
          (fun c => Stmt.insertCompanyDeleted ⟨c, now⟩) ++
        [Stmt.deleteCompaniesByUser uid] ++
        (if wr then [Stmt.refreshView] else [])) ++
        [Stmt.insertUserDeleted ⟨user, now⟩, Stmt.deleteUserByUuid uid], ?_, ?_⟩
    · simp [delete_user_plan, hu, hne]
    · cases wr with
      | true =>
          refine ⟨{ s with
              users := s.users.filter (fun r => r.uuid != uid),
              users_deleted := s.users_deleted ++ [⟨user, now⟩],
              companies := s.companies.filter (fun c => c.user_uuid != uid),
              companies_deleted := s.companies_deleted ++
                (s.companies.filter (fun c => c.user_uuid == uid)).map
                  (fun c => ⟨c, now⟩),
              company_search := companySearchView
                { s with
                    companies := s.companies.filter (fun c => c.user_uuid != uid),
                    companies_deleted := s.companies_deleted ++
                      (s.companies.filter (fun c => c.user_uuid == uid)).map
                        (fun c => ⟨c, now⟩) } }, ?_, ?_⟩
          · simp only [List.append_assoc, List.cons_append, List.nil_append,
              if_true, applyAll_insert_shadow]
            simp [applyAll, applyStmt]
          · exact ⟨rfl, rfl, rfl, rfl, rfl, rfl, rfl, rfl⟩
      | false =>
          refine ⟨{ s with
              users := s.users.filter (fun r => r.uuid != uid),
              users_deleted := s.users_deleted ++ [⟨user, now⟩],
              companies := s.companies.filter (fun c => c.user_uuid != uid),
              companies_deleted := s.companies_deleted ++
                (s.companies.filter (fun c => c.user_uuid == uid)).map
                  (fun c => ⟨c, now⟩) }, ?_, ?_⟩
          · simp only [List.append_assoc, List.cons_append, List.nil_append,
              if_false, applyAll_insert_shadow]
            simp [applyAll, applyStmt]
          · exact ⟨rfl, rfl, rfl, rfl, rfl, rfl, rfl, rfl⟩

/-- The user-cascade transaction, with an arbitrary injected failure:
either it rolls back completely or it commits the full cascade. -/
theorem cascade_tx_cases (crashAt : Option Nat) (now : Nat) (s : DBState)
    (uid : Nat) (user : UserRow) (wr : Bool)
    (hu : s.users.find? (fun r => r.uuid == uid) = some user) :
    (∃ e, runOpTx crashAt s (delete_user_plan s uid now wr) = (s, .error e)) ∨
      ∃ s', runOpTx crashAt s (delete_user_plan s uid now wr) =
          (s', .ok ⟨toString uid, user.email,
            (s.companies.filter (fun c => c.user_uuid == uid)).length⟩) ∧
        CascadePost s s' user uid now := by
  obtain ⟨stmts, hplan, s', happ, hpost⟩ := cascade_plan_spec s uid now user wr hu
  rw [hplan]
  rcases runOpTx_cases crashAt s stmts
      (⟨toString uid, user.email,
        (s.companies.filter (fun c => c.user_uuid == uid)).length⟩ : CascadeResult) with
    ⟨e, he⟩ | ⟨s'', happ', heq⟩
  · exact Or.inl ⟨e, he⟩
  · rw [happ] at happ'
    rw [← Except.ok.inj happ'] at heq
    exact Or.inr ⟨s', heq, hpost⟩

/-- Any email address equal to the configured admin email is an admin. -/
theorem is_admin_self (a : String) : is_admin a a = true := by
  simp [is_admin]

/-- Every single write statement preserves the one-company-per-user
invariant; in the only case that can add a company, the
`uq_companies_user_uuid` constraint guards the insert. -/
theorem applyStmt_preserves_one (st : Stmt) (s s' : DBState)
    (h : applyStmt st s = .ok s') (hw : OneCompanyPerUser s) :
    OneCompanyPerUser s' := by
  cases st with
  | insertCompany r =>
      by_cases hany : s.companies.any (fun c => c.user_uuid == r.user_uuid) = true
      · simp [applyStmt, hany] at h
      · have hany' : s.companies.any (fun c => c.user_uuid == r.user_uuid) = false := by
          simpa using hany
        simp only [applyStmt, hany', Bool.false_eq_true, if_false,
          Except.ok.injEq] at h
        rw [← h]
        refine List.pairwise_append.mpr ⟨hw, List.pairwise_singleton _ _, ?_⟩
        intro a ha b hb
        have hb' : b = r := List.mem_singleton.mp hb
        subst hb'
        have := List.any_eq_false.mp hany' a ha
        simp only [beq_iff_eq] at this
        exact this
  | insertUserDeleted r =>
      simp only [applyStmt, Except.ok.injEq] at h; rw [← h]; exact hw
  | deleteUserByUuid u =>
      simp only [applyStmt, Except.ok.injEq] at h; rw [← h]; exact hw
  | insertProductDeleted r =>
      simp only [applyStmt, Except.ok.injEq] at h; rw [← h]; exact hw
  | deleteProductByUuid u =>
      simp only [applyStmt, Except.ok.injEq] at h; rw [← h]; exact hw
  | insertCommuneDeleted r =>
      simp only [applyStmt, Except.ok.injEq] at h; rw [← h]; exact hw
  | deleteCommuneByUuid u =>
      simp only [applyStmt, Except.ok.injEq] at h; rw [← h]; exact hw
  | insertCompanyDeleted r =>
      simp only [applyStmt, Except.ok.injEq] at h; rw [← h]; exact hw
  | deleteCompanyByUuid u =>
      simp only [applyStmt, Except.ok.injEq] at h; rw [← h]
      exact hw.sublist (List.filter_sublist _)
  | deleteCompaniesByUser u =>
      simp only [applyStmt, Except.ok.injEq] at h; rw [← h]
      exact hw.sublist (List.filter_sublist _)
  | refreshView =>
      simp only [applyStmt, Except.ok.injEq] at h; rw [← h]; exact hw

/-- A successfully committed statement sequence preserves the invariant. -/
theorem runStmts_preserves (crashAt : Option Nat) (stmts : List Stmt) :
    ∀ (i : Nat) (s s' : DBState), runStmts crashAt i stmts s = .ok s' →
      OneCompanyPerUser s → OneCompanyPerUser s' := by
  induction stmts with
  | nil =>
      intro i s s' h hw
      simp only [runStmts, Except.ok.injEq] at h
      rw [← h]; exact hw
  | cons st rest ih =>
      intro i s s' h hw
      by_cases hc : (crashAt == some i) = true
      · simp [runStmts, hc] at h
      · have hc' : (crashAt == some i) = false := by simpa using hc
        cases hap : applyStmt st s with
        | error e => simp [runStmts, hc', hap] at h
        | ok s1 =>
            simp only [runStmts, hc', Bool.false_eq_true, if_false, hap] at h
            exact ih (i + 1) s1 s' h (applyStmt_preserves_one st s s1 hap hw)

/-- The post-state of a planned transaction is either the rolled-back
input state or the commit of some statement sequence. -/
theorem runOpTx_state_cases {α : Type} (crashAt : Option Nat) (s : DBState)
    (planned : Except Err (List Stmt × α)) :
    (runOpTx crashAt s planned).1 = s ∨
      ∃ stmts, runStmts crashAt 0 stmts s = .ok (runOpTx crashAt s planned).1 := by
  cases planned with
  | error e => exact Or.inl rfl
  | ok pair =>
      cases hr : runStmts crashAt 0 pair.1 s with
      | error e => exact Or.inl (by simp [runOpTx, hr])
      | ok s' => exact Or.inr ⟨pair.1, by simp [runOpTx, hr]⟩

/-- A total row mapping turns `mapExcept` into a plain `map`. -/
theorem mapExcept_ok_of_total {α β : Type} (f : α → Except Err β) (g : α → β)
    (hf : ∀ a, f a = .ok (g a)) : ∀ l : List α, mapExcept f l = .ok (l.map g) := by
  intro l
  induction l with
  | nil => rfl
  | cons a l ih => simp [mapExcept, hf a, ih]

/-- Every element of a successful `mapExcept` output comes from an input
element on which the mapping succeeded. -/
theorem mapExcept_ok_mem {α β : Type} (f : α → Except Err β) :
    ∀ (l : List α) (bs : List β), mapExcept f l = .ok bs →
      ∀ b ∈ bs, ∃ a ∈ l, f a = .ok b := by
  intro l
  induction l with
  | nil =>
      intro bs h b hb
      simp only [mapExcept, Except.ok.injEq] at h
      rw [← h] at hb
      simp at hb
  | cons a l ih =>
      intro bs h b hb
      cases hfa : f a with
      | error e => simp [mapExcept, hfa] at h
      | ok b0 =>
          cases hml : mapExcept f l with
          | error e => simp [mapExcept, hfa, hml] at h
          | ok bs0 =>
              simp only [mapExcept, hfa, hml, Except.ok.injEq] at h
              rw [← h] at hb
              rcases List.mem_cons.mp hb with rfl | hb'
              · exact ⟨a, List.mem_cons_self a l, hfa⟩
              · obtain ⟨a', ha', hfa'⟩ := ih bs0 hml b hb'
                exact ⟨a', List.mem_cons_of_mem a ha', hfa'⟩

/-- For the two supported languages the row mapping always succeeds and
yields `searchResultOf`. -/
theorem searchRowToResult_ok (lang : String) (qlex : List String)
    (r : SearchRow) (hlang : lang = "es" ∨ lang = "en") :
    searchRowToResult lang qlex r = .ok (searchResultOf lang qlex r) := by
  rcases hlang with rfl | rfl <;> rfl

/-- Whatever the language, a successfully mapped row keeps its company id
as the result uuid. -/
theorem searchRowToResult_uuid (lang : String) (qlex : List String)
    (r : SearchRow) (res : SearchResult)
    (h : searchRowToResult lang qlex r = .ok res) :
    res.uuid = r.company_id := by
  unfold searchRowToResult at h
  split at h
  · simp only [Except.ok.injEq] at h
    rw [← h]
  · simp at h
  · simp at h

/-- The `ORDER BY rank DESC` output is a permutation of its input. -/
theorem sortDescBy_perm {α : Type} (key : α → Nat) (l : List α) :
    List.Perm (sortDescBy key l) l :=
  List.perm_insertionSort _ l

/-- The `ORDER BY rank DESC` output is sorted descending by the key. -/
theorem sortDescBy_sorted {α : Type} (key : α → Nat) (l : List α) :
    List.Sorted (fun a b => key b ≤ key a) (sortDescBy key l) :=
  @List.sorted_insertionSort α (fun a b => key b ≤ key a)
    (fun a b => Nat.decLe (key b) (key a))
    ⟨fun a b => Nat.le_total (key b) (key a)⟩
    ⟨fun _ _ _ hab hbc => Nat.le_trans hbc hab⟩ l

/-- An AND-tsquery matches a concatenated vector iff it is nonempty and
every term lexeme occurs in one of the two halves. -/
theorem tsMatch_append_iff (v1 v2 qlex : List String) :
    tsMatch (v1 ++ v2) qlex = true ↔
      qlex ≠ [] ∧ ∀ t ∈ qlex, t ∈ v1 ∨ t ∈ v2 := by
  simp [tsMatch, List.isEmpty_iff, List.mem_append]

/-- A page of the rank-descending ordering is itself rank-descending. -/
theorem search_page_sorted (key : SearchRow → Nat) (l : List SearchRow)
    (limit offset : Nat) :
    List.Pairwise (fun a b => key b ≤ key a)
      (((sortDescBy key l).drop offset).take limit) :=
  (sortDescBy_sorted key l).sublist
    ((List.take_sublist _ _).trans (List.drop_sublist _ _))

/-- Closed form of a successful search for a supported language. -/
theorem search_companies_ok (s : DBState) (query lang : String)
    (limit offset : Nat) (hlang : lang = "es" ∨ lang = "en")
    (hterms : (pySplit query).isEmpty = false) :
    search_companies s query lang limit offset = .ok
      (((((sortDescBy
          (fun r => tsRank r.search_vector
            (toTsQueryLexemes (if lang == "es" then TsConfig.spanish
              else TsConfig.english) query))
          (s.company_search.filter
            (fun r => tsMatch r.search_vector
              (toTsQueryLexemes (if lang == "es" then TsConfig.spanish
                else TsConfig.english) query))))).drop offset).take limit).map
        (searchResultOf lang
          (toTsQueryLexemes (if lang == "es" then TsConfig.spanish
            else TsConfig.english) query))) := by
  simp only [search_companies, hterms, Bool.false_eq_true, if_false]
  exact mapExcept_ok_of_total _ _
    (fun r => searchRowToResult_ok lang _ r hlang) _

/-- Every search result corresponds to a stored view row with the same
company id. -/
theorem search_results_from_view (s : DBState) (query lang : String)
    (limit offset : Nat) (rs : List SearchResult)
    (h : search_companies s query lang limit offset = .ok rs) :
    ∀ res ∈ rs, ∃ row ∈ s.company_search, res.uuid = row.company_id := by
  intro res hres
  by_cases hempty : (pySplit query).isEmpty = true
  · simp [search_companies, hempty] at h
  · have hempty' : (pySplit query).isEmpty = false := by simpa using hempty
    simp only [search_companies, hempty', Bool.false_eq_true, if_false] at h
    obtain ⟨row, hrow, hfr⟩ := mapExcept_ok_mem _ _ _ h res hres
    refine ⟨row, ?_, searchRowToResult_uuid _ _ _ _ hfr⟩
    have h1 := List.take_subset _ _ hrow
    have h2 := List.drop_subset _ _ h1
    have h3 := (sortDescBy_perm _ _).mem_iff.mp h2
    exact (List.mem_filter.mp h3).1

/-- A successful router `create_company` inserts exactly the new row and
then refreshes the view before returning. -/
theorem router_create_company_ok (now nu : Nat) (s : DBState)
    (uid pid cid : Nat) (nm de dn ad ph em im : String)
    (s' : DBState) (j : Option CompanyJoined)
    (h : router_create_company now nu s uid pid cid nm de dn ad ph em im =
      (s', .ok j)) :
    ∃ s1 : DBState, s1.companies = s.companies ++
        [⟨nu, uid, pid, cid, nm, de, dn, ad, ph, em, im, now, now⟩] ∧
      s1.products = s.products ∧ s1.users = s.users ∧
      s1.communes = s.communes ∧
      s' = { s1 with company_search := companySearchView s1 } := by
  simp only [router_create_company] at h
  split at h
  · simp at h
  split at h
  · simp at h
  by_cases hown : (s.companies.any fun c => c.user_uuid == uid) = true
  · simp [applyStmt, hown] at h
  · have hown' : (s.companies.any fun c => c.user_uuid == uid) = false := by
      simpa using hown
    simp only [applyStmt, hown', Bool.false_eq_true, if_false] at h
    rw [Prod.mk.injEq] at h
    exact ⟨{ s with companies := s.companies ++
        [⟨nu, uid, pid, cid, nm, de, dn, ad, ph, em, im, now, now⟩] },
      rfl, rfl, rfl, rfl, h.1.symm⟩

/-- A successful router `delete_company` leaves no live company with the
deleted id and refreshes the view before returning. -/
theorem router_delete_company_ok (now : Nat) (s : DBState) (cid uid : Nat)
    (s'' : DBState) (msg : String)
    (h : router_delete_company now s cid uid = (s'', .ok msg)) :
    ∃ s1 : DBState, (∀ c ∈ s1.companies, c.uuid ≠ cid) ∧
      s'' = { s1 with company_search := companySearchView s1 } := by
  cases hdel : delete_company_by_uuid none now s cid uid with
  | mk s1 r =>
    cases r with
    | error e => simp [router_delete_company, hdel] at h
    | ok b =>
        cases b with
        | false => simp [router_delete_company, hdel] at h
        | true =>
            simp only [router_delete_company, hdel] at h
            rw [Prod.mk.injEq] at h
            refine ⟨s1, ?_, h.1.symm⟩
            cases hfind : s.companies.find?
                (fun c => c.uuid == cid && c.user_uuid == uid) with
            | none => simp [delete_company_by_uuid, hfind] at hdel
            | some company =>
                simp only [delete_company_by_uuid, hfind] at hdel
                rw [runStmts_none] at hdel
                simp only [applyAll, applyStmt] at hdel
                rw [Prod.mk.injEq] at hdel
                rw [← hdel.1]
                intro c hc
                have hmem := (List.mem_filter.mp hc).2
                simpa [bne_iff_ne] using hmem

/-- A successful `create_company` appends exactly the new row to the live
company table. -/
theorem create_company_ok_companies (now nu : Nat) (s : DBState)
    (uid pid cid : Nat) (nm de dn ad ph em im : String)
    (s1 : DBState) (j : Option CompanyJoined)
    (h : create_company none now nu s uid pid cid nm de dn ad ph em im =
      (s1, .ok j)) :
    s1.companies = s.companies ++
      [⟨nu, uid, pid, cid, nm, de, dn, ad, ph, em, im, now, now⟩] := by
  simp only [create_company] at h
  split at h
  · simp at h
  split at h
  · simp at h
  split at h
  · simp at h
  split at h
  next e heq => simp at h
  next s' heq =>
      rw [runStmts_none] at heq
      by_cases hown : (s.companies.any fun c => c.user_uuid == uid) = true
      · simp [applyAll, applyStmt, hown] at heq
      · have hown' : (s.companies.any fun c => c.user_uuid == uid) = false := by
          simpa using hown
        simp only [applyAll, applyStmt, hown', Bool.false_eq_true, if_false,
          Except.ok.injEq] at heq
        have hs1 : s' = s1 := congrArg Prod.fst h
        rw [← hs1, ← heq]

/-! ## Claim theorems -/

/-- C9: the retry wrapper is meant to retry transient error classes with
exponential backoff, but `app/utils/db_retry.py` never imports `logging`,
so every evaluation of `db_retry(...)` -- which happens already when the
decorator is applied at import of `app/database/transactions.py` -- raises
`NameError` instead of building a retry policy. -/
theorem db_retry_never_builds_policy :
    "logging" ∉ dbRetryModuleNames ∧
      ∀ stop_after : Nat,
        db_retry stop_after = .error (.nameError "logging") := by
  refine ⟨by decide, fun stop_after => rfl⟩

/-- C10: admin gating is meant to compare the requester email with the
configured admin email case-insensitively, but the `Settings` class in
`app/config.py` declares no `admin_email` field, so `settings.admin_email`
raises `AttributeError` and `DB.is_admin` fails for every input instead of
deciding admin status. -/
theorem is_admin_settings_attribute_missing :
    "admin_email" ∉ settingsDeclaredFields ∧
      settingsAdminEmail = none ∧
      ∀ email : String,
        is_admin_run email = .error (.attributeError "admin_email") := by
  exact ⟨by decide, rfl, fun _ => rfl⟩

/-- C1: the user-cascade delete (both the self-service and the admin
variant) is all-or-nothing: for a user with N live companies it either
fails with the pre-transaction state fully intact (live and shadow tables
alike), or it succeeds, archiving the user row and all N company rows into
their shadow tables, removing them from the live tables, leaving every
other table untouched, and reporting `companies_deleted = N` -- under an
arbitrary injected mid-transaction failure. -/
theorem user_cascade_all_or_nothing
    (crashAt : Option Nat) (now : Nat) (adminEmail : String) (s : DBState)
    (uid : Nat) (user : UserRow) (admin_email : String)
    (hu : s.users.find? (fun r => r.uuid == uid) = some user) :
    ((∃ e, delete_user_by_uuid crashAt now s uid = (s, .error e)) ∨
      ∃ s', delete_user_by_uuid crashAt now s uid =
          (s', .ok ⟨toString uid, user.email,
            (s.companies.filter (fun c => c.user_uuid == uid)).length⟩) ∧
        CascadePost s s' user uid now) ∧
    (is_admin adminEmail admin_email = true →
      ((∃ e, admin_delete_user_by_uuid crashAt now adminEmail s uid admin_email =
          (s, .error e)) ∨
        ∃ s', admin_delete_user_by_uuid crashAt now adminEmail s uid admin_email =
            (s', .ok ⟨toString uid, user.email,
              (s.companies.filter (fun c => c.user_uuid == uid)).length⟩) ∧
          CascadePost s s' user uid now)) := by
  constructor
  · exact cascade_tx_cases crashAt now s uid user true hu
  · intro hadmin
    have hop : admin_delete_user_by_uuid crashAt now adminEmail s uid admin_email =
        runOpTx crashAt s (delete_user_plan s uid now false) := by
      simp [admin_delete_user_by_uuid, hadmin]
    rw [hop]
    exact cascade_tx_cases crashAt now s uid user false hu

/-- Witness for C1: the cascade applied to `wUser` (one live company) at a
concrete state, with a failure injected before statement 1. -/
theorem user_cascade_all_or_nothing_witness :
    ((∃ e, delete_user_by_uuid (some 1) 7 wState 10 = (wState, .error e)) ∨
      ∃ s', delete_user_by_uuid (some 1) 7 wState 10 =
          (s', .ok ⟨toString 10, wUser.email,
            (wState.companies.filter (fun c => c.user_uuid == 10)).length⟩) ∧
        CascadePost wState s' wUser 10 7) ∧
    (is_admin "a@b.c" "a@b.c" = true →
      ((∃ e, admin_delete_user_by_uuid (some 1) 7 "a@b.c" wState 10 "a@b.c" =
          (wState, .error e)) ∨
        ∃ s', admin_delete_user_by_uuid (some 1) 7 "a@b.c" wState 10 "a@b.c" =
            (s', .ok ⟨toString 10, wUser.email,
              (wState.companies.filter (fun c => c.user_uuid == 10)).length⟩) ∧
          CascadePost wState s' wUser 10 7)) :=
  user_cascade_all_or_nothing (some 1) 7 "a@b.c" wState 10 wUser "a@b.c" rfl

/-- C5: `delete_product_by_uuid` fails, carrying the blocking company
count in its error and leaving the whole state (live and shadow tables)
unchanged, whenever at least one live company references the product; it
archives and removes the product when the count is zero.  Symmetrically
for `delete_commune_by_uuid`. -/
theorem reference_blocked_delete
    (crashAt : Option Nat) (now : Nat) (adminEmail : String) (s : DBState)
    (product_uuid commune_uuid : Nat) (user_email : String)
    (product : ProductRow) (commune : CommuneRow)
    (hadmin : is_admin adminEmail user_email = true)
    (hp : s.products.find? (fun r => r.uuid == product_uuid) = some product)
    (hc : s.communes.find? (fun r => r.uuid == commune_uuid) = some commune) :
    ((s.companies.filter (fun c => c.product_uuid == product_uuid)).length > 0 →
      delete_product_by_uuid crashAt now adminEmail s product_uuid user_email =
        (s, .error (.valueError (blockedProductMsg product.name_en
          (s.companies.filter (fun c => c.product_uuid == product_uuid)).length)))) ∧
    ((s.companies.filter (fun c => c.product_uuid == product_uuid)).length = 0 →
      delete_product_by_uuid none now adminEmail s product_uuid user_email =
        ({ s with
            products := s.products.filter (fun r => r.uuid != product_uuid),
            products_deleted := s.products_deleted ++ [⟨product, now⟩] },
         .ok ⟨toString product.uuid, product.name_es, product.name_en⟩)) ∧
    ((s.companies.filter (fun c => c.commune_uuid == commune_uuid)).length > 0 →
      delete_commune_by_uuid crashAt now adminEmail s commune_uuid user_email =
        (s, .error (.valueError (blockedCommuneMsg commune.name
          (s.companies.filter (fun c => c.commune_uuid == commune_uuid)).length)))) ∧
    ((s.companies.filter (fun c => c.commune_uuid == commune_uuid)).length = 0 →
      delete_commune_by_uuid none now adminEmail s commune_uuid user_email =
        ({ s with
            communes := s.communes.filter (fun r => r.uuid != commune_uuid),
            communes_deleted := s.communes_deleted ++ [⟨commune, now⟩] },
         .ok ⟨toString commune.uuid, commune.name⟩)) := by
  refine ⟨?_, ?_, ?_, ?_⟩
  · intro hcount
    simp [delete_product_by_uuid, hadmin, delete_product_plan, hp, hcount,
      runOpTx]
  · intro hcount
    simp [delete_product_by_uuid, hadmin, delete_product_plan, hp, hcount,
      runOpTx, runStmts_none, applyAll, applyStmt]
  · intro hcount
    simp [delete_commune_by_uuid, hadmin, delete_commune_plan, hc, hcount,
      runOpTx]
  · intro hcount
    simp [delete_commune_by_uuid, hadmin, delete_commune_plan, hc, hcount,
      runOpTx, runStmts_none, applyAll, applyStmt]

/-- Witness for C5: at a concrete state, deleting the referenced product
and commune fails with the count-carrying error and no state change, while
deleting the unreferenced product and commune archives them. -/
theorem reference_blocked_delete_witness :
    delete_product_by_uuid none 7 "a@b.c" wState 1 "a@b.c" =
      (wState, .error (.valueError (blockedProductMsg "bread" 1))) ∧
    delete_product_by_uuid none 7 "a@b.c" wState 3 "a@b.c" =
      ({ wState with
          products := wState.products.filter (fun r => r.uuid != 3),
          products_deleted := wState.products_deleted ++ [⟨wProduct2, 7⟩] },
       .ok ⟨toString wProduct2.uuid, wProduct2.name_es, wProduct2.name_en⟩) ∧
    delete_commune_by_uuid none 7 "a@b.c" wState 2 "a@b.c" =
      (wState, .error (.valueError (blockedCommuneMsg "springfield" 1))) ∧
    delete_commune_by_uuid none 7 "a@b.c" wState 4 "a@b.c" =
      ({ wState with
          communes := wState.communes.filter (fun r => r.uuid != 4),
          communes_deleted := wState.communes_deleted ++ [⟨wCommune2, 7⟩] },
       .ok ⟨toString wCommune2.uuid, wCommune2.name⟩) := by
  have h1 := reference_blocked_delete none 7 "a@b.c" wState 1 2 "a@b.c"
    wProduct wCommune (is_admin_self "a@b.c") rfl rfl
  have h2 := reference_blocked_delete none 7 "a@b.c" wState 3 4 "a@b.c"
    wProduct2 wCommune2 (is_admin_self "a@b.c") rfl rfl
  exact ⟨h1.1 (by decide), h2.2.1 (by decide),
         h1.2.2.1 (by decide), h2.2.2.2 (by decide)⟩

/-- C2 counterexample: the claim asserts every archive-and-remove on an id
present in the live table succeeds, but `delete_product_by_uuid` on the
live, referenced product `wProduct` fails with the reference-blocked error
and changes nothing. -/
theorem archive_remove_present_id_can_fail :
    (wState.products.find? (fun r => r.uuid == 1)).isSome = true ∧
    delete_product_by_uuid none 7 "a@b.c" wState 1 "a@b.c" =
      (wState, .error (.valueError (blockedProductMsg "bread" 1))) := by
  refine ⟨rfl, ?_⟩
  have hadmin := is_admin_self "a@b.c"
  simp only [delete_product_by_uuid, hadmin, not_true, if_false]
  rfl

/-- C2 (amended): for every entity kind, when the id is present in the
live table and the operation's own guards pass (admin and a zero
reference count for product/commune; owner match for company; none for
user), the archive-and-remove succeeds, the row leaves the live table and
appears verbatim (plus the deletion timestamp) in the shadow table; the
transaction's write plan places the shadow insert strictly before the
live delete, so executing only the prefix up to the insert leaves the
live row intact. -/
theorem archive_and_remove_moves_row_when_guards_pass
    (now : Nat) (adminEmail : String) (s : DBState)
    (product_uuid commune_uuid company_uuid owner_uuid uid : Nat)
    (user_email : String) (product : ProductRow) (commune : CommuneRow)
    (company : CompanyRow) (user : UserRow)
    (hadmin : is_admin adminEmail user_email = true)
    (hp : s.products.find? (fun r => r.uuid == product_uuid) = some product)
    (hp0 : s.companies.filter (fun c => c.product_uuid == product_uuid) = [])
    (hc : s.communes.find? (fun r => r.uuid == commune_uuid) = some commune)
    (hc0 : s.companies.filter (fun c => c.commune_uuid == commune_uuid) = [])
    (hcomp : s.companies.find?
        (fun r => r.uuid == company_uuid && r.user_uuid == owner_uuid) = some company)
    (hu : s.users.find? (fun r => r.uuid == uid) = some user) :
    (delete_product_plan s product_uuid now =
      .ok ([Stmt.insertProductDeleted ⟨product, now⟩,
            Stmt.deleteProductByUuid product_uuid],
           ⟨toString product.uuid, product.name_es, product.name_en⟩) ∧
     runPrefix 1 [Stmt.insertProductDeleted ⟨product, now⟩,
                  Stmt.deleteProductByUuid product_uuid] s =
       .ok { s with products_deleted := s.products_deleted ++ [⟨product, now⟩] } ∧
     delete_product_by_uuid none now adminEmail s product_uuid user_email =
       ({ s with
           products := s.products.filter (fun r => r.uuid != product_uuid),
           products_deleted := s.products_deleted ++ [⟨product, now⟩] },
        .ok ⟨toString product.uuid, product.name_es, product.name_en⟩)) ∧
    (delete_commune_plan s commune_uuid now =
      .ok ([Stmt.insertCommuneDeleted ⟨commune, now⟩,
            Stmt.deleteCommuneByUuid commune_uuid],
           ⟨toString commune.uuid, commune.name⟩) ∧
     runPrefix 1 [Stmt.insertCommuneDeleted ⟨commune, now⟩,
                  Stmt.deleteCommuneByUuid commune_uuid] s =
       .ok { s with communes_deleted := s.communes_deleted ++ [⟨commune, now⟩] } ∧
     delete_commune_by_uuid none now adminEmail s commune_uuid user_email =
       ({ s with
           communes := s.communes.filter (fun r => r.uuid != commune_uuid),
           communes_deleted := s.communes_deleted ++ [⟨commune, now⟩] },
        .ok ⟨toString commune.uuid, commune.name⟩)) ∧
    (runPrefix 1 [Stmt.insertCompanyDeleted ⟨company, now⟩,
                  Stmt.deleteCompanyByUuid company_uuid] s =
       .ok { s with companies_deleted := s.companies_deleted ++ [⟨company, now⟩] } ∧
     delete_company_by_uuid none now s company_uuid owner_uuid =
       ({ s with
           companies := s.companies.filter (fun r => r.uuid != company_uuid),
           companies_deleted := s.companies_deleted ++ [⟨company, now⟩] },
        .ok true)) ∧
    (∃ s', delete_user_by_uuid none now s uid =
        (s', .ok ⟨toString uid, user.email,
          (s.companies.filter (fun c => c.user_uuid == uid)).length⟩) ∧
      CascadePost s s' user uid now) := by
  refine ⟨⟨?_, ?_, ?_⟩, ⟨?_, ?_, ?_⟩, ⟨?_, ?_⟩, ?_⟩
  · simp [delete_product_plan, hp, hp0]
  · simp [runPrefix, applyStmt]
  · simp [delete_product_by_uuid, hadmin, delete_product_plan, hp, hp0,
      runOpTx, runStmts_none, applyAll, applyStmt]
  · simp [delete_commune_plan, hc, hc0]
  · simp [runPrefix, applyStmt]
  · simp [delete_commune_by_uuid, hadmin, delete_commune_plan, hc, hc0,
      runOpTx, runStmts_none, applyAll, applyStmt]
  · simp [runPrefix, applyStmt]
  · simp [delete_company_by_uuid, hcomp, runStmts_none, applyAll, applyStmt]
  · obtain ⟨stmts, hplan, s', happ, hpost⟩ :=
      cascade_plan_spec s uid now user true hu
    refine ⟨s', ?_, hpost⟩
    show runOpTx none s (delete_user_plan s uid now true) = _
    rw [hplan]
    exact runOpTx_none s stmts _ s' happ

/-- Witness for C2 (amended) at a concrete state: unreferenced product 3
and commune 4, owned company 5, and user 10 all archive-and-remove
successfully with insert-before-delete plans. -/
theorem archive_and_remove_moves_row_witness :
    delete_product_by_uuid none 7 "a@b.c" wState 3 "a@b.c" =
      ({ wState with
          products := wState.products.filter (fun r => r.uuid != 3),
          products_deleted := wState.products_deleted ++ [⟨wProduct2, 7⟩] },
       .ok ⟨toString wProduct2.uuid, wProduct2.name_es, wProduct2.name_en⟩) ∧
    runPrefix 1 [Stmt.insertProductDeleted ⟨wProduct2, 7⟩,
                 Stmt.deleteProductByUuid 3] wState =
      .ok { wState with
            products_deleted := wState.products_deleted ++ [⟨wProduct2, 7⟩] } ∧
    (∃ s', delete_user_by_uuid none 7 wState 10 =
        (s', .ok ⟨toString 10, wUser.email,
          (wState.companies.filter (fun c => c.user_uuid == 10)).length⟩) ∧
      CascadePost wState s' wUser 10 7) := by
  have h := archive_and_remove_moves_row_when_guards_pass 7 "a@b.c" wState
    3 4 5 10 10 "a@b.c" wProduct2 wCommune2 wCompany wUser
    (is_admin_self "a@b.c") rfl (by decide) rfl (by decide) rfl rfl
  exact ⟨h.1.2.2, h.1.2.1, h.2.2.2⟩

/-- C7: `delete_company_by_uuid` succeeds (returns `True`) exactly when a
live company with the requested id exists and is owned by the requester,
archiving and removing it; with an absent id or a different owner it
returns `False` without error and without touching any state, so a second
delete of the same id returns `False`. -/
theorem delete_company_owner_only_and_idempotent
    (s : DBState) (company_uuid user_uuid now : Nat) (c : CompanyRow)
    (h : s.companies.find?
        (fun r => r.uuid == company_uuid && r.user_uuid == user_uuid) = some c) :
    delete_company_by_uuid none now s company_uuid user_uuid =
      ({ s with
          companies := s.companies.filter (fun r => r.uuid != company_uuid),
          companies_deleted := s.companies_deleted ++ [⟨c, now⟩] }, .ok true) ∧
    delete_company_by_uuid none now
      { s with
          companies := s.companies.filter (fun r => r.uuid != company_uuid),
          companies_deleted := s.companies_deleted ++ [⟨c, now⟩] }
      company_uuid user_uuid =
      ({ s with
          companies := s.companies.filter (fun r => r.uuid != company_uuid),
          companies_deleted := s.companies_deleted ++ [⟨c, now⟩] }, .ok false) ∧
    ∀ (t : DBState) (cid uid now' : Nat),
      t.companies.find? (fun r => r.uuid == cid && r.user_uuid == uid) = none →
        delete_company_by_uuid none now' t cid uid = (t, .ok false) := by
  refine ⟨?_, ?_, ?_⟩
  · simp [delete_company_by_uuid, h, runStmts, applyStmt]
  · have hnone : (s.companies.filter (fun r => r.uuid != company_uuid)).find?
        (fun r => r.uuid == company_uuid && r.user_uuid == user_uuid) = none := by
      refine List.find?_eq_none.mpr ?_
      intro x hx
      have hne := (List.mem_filter.mp hx).2
      simp only [bne_iff_ne, ne_eq] at hne
      simp [hne]
    simp [delete_company_by_uuid, hnone]
  · intro t cid uid now' hnone
    simp [delete_company_by_uuid, hnone]

/-- Witness for C7 at a concrete state: the owner's delete succeeds and
archives the company, and the immediate re-delete returns `False`. -/
theorem delete_company_owner_only_and_idempotent_witness :
    delete_company_by_uuid none 7 wState 5 10 =
      ({ wState with
          companies := wState.companies.filter (fun r => r.uuid != 5),
          companies_deleted := wState.companies_deleted ++ [⟨wCompany, 7⟩] },
       .ok true) ∧
    delete_company_by_uuid none 7
      { wState with
          companies := wState.companies.filter (fun r => r.uuid != 5),
          companies_deleted := wState.companies_deleted ++ [⟨wCompany, 7⟩] }
      5 10 =
      ({ wState with
          companies := wState.companies.filter (fun r => r.uuid != 5),
          companies_deleted := wState.companies_deleted ++ [⟨wCompany, 7⟩] },
       .ok false) := by
  have h := delete_company_owner_only_and_idempotent wState 5 10 7 wCompany (by rfl)
  exact ⟨h.1, h.2.1⟩

/-- C6: every operation that can touch the live company table preserves
the at-most-one-live-company-per-user invariant (the insert is guarded by
the pre-check and, at statement level, by the `uq_companies_user_uuid`
unique constraint); `create_company` for an owner who already has a live
company fails with the conflict `ValueError` and changes nothing; and of
two serialized `create_company` calls with the same owner, the first
succeeds and the second fails with that conflict error. -/
theorem one_company_per_user_invariant
    (crashAt : Option Nat) (now newUuid now2 newUuid2 : Nat)
    (adminEmail requester : String) (s : DBState) (uid pid cid coid : Nat)
    (nm de dn ad ph em im : String)
    (hw : OneCompanyPerUser s) :
    OneCompanyPerUser
      (create_company crashAt now newUuid s uid pid cid nm de dn ad ph em im).1 ∧
    OneCompanyPerUser
      (router_create_company now newUuid s uid pid cid nm de dn ad ph em im).1 ∧
    OneCompanyPerUser (delete_company_by_uuid crashAt now s coid uid).1 ∧
    OneCompanyPerUser
      (admin_delete_company_by_uuid crashAt now adminEmail s coid requester).1 ∧
    OneCompanyPerUser (delete_user_by_uuid crashAt now s uid).1 ∧
    OneCompanyPerUser
      (admin_delete_user_by_uuid crashAt now adminEmail s uid requester).1 ∧
    (s.companies.any (fun c => c.user_uuid == uid) = true →
      create_company crashAt now newUuid s uid pid cid nm de dn ad ph em im =
        (s, .error (.valueError alreadyHasCompanyMsg))) ∧
    (∀ s1 j,
      create_company none now newUuid s uid pid cid nm de dn ad ph em im =
        (s1, .ok j) →
      create_company none now2 newUuid2 s1 uid pid cid nm de dn ad ph em im =
        (s1, .error (.valueError alreadyHasCompanyMsg))) := by
  have hpres : ∀ (X : DBState),
      (X = s ∨ ∃ stmts, runStmts crashAt 0 stmts s = .ok X) →
        OneCompanyPerUser X := by
    rintro X (rfl | ⟨stmts, hr⟩)
    · exact hw
    · exact runStmts_preserves crashAt stmts 0 s X hr hw
  refine ⟨?_, ?_, ?_, ?_, ?_, ?_, ?_, ?_⟩
  · refine hpres _ ?_
    simp only [create_company]
    split
    · exact Or.inl rfl
    split
    · exact Or.inl rfl
    split
    · exact Or.inl rfl
    split
    next e heq => exact Or.inl rfl
    next s' heq => exact Or.inr ⟨_, heq⟩
  · simp only [router_create_company]
    split
    · exact hw
    split
    · exact hw
    split
    next e heq => exact hw
    next s1 heq => exact applyStmt_preserves_one _ s s1 heq hw
  · refine hpres _ ?_
    simp only [delete_company_by_uuid]
    split
    · exact Or.inl rfl
    split
    next s' heq => exact Or.inr ⟨_, heq⟩
    next e heq => exact Or.inl rfl
  · refine hpres _ ?_
    simp only [admin_delete_company_by_uuid]
    split
    · exact Or.inl rfl
    split
    · exact Or.inl rfl
    exact runOpTx_state_cases crashAt s _
  · exact hpres _ (runOpTx_state_cases crashAt s _)
  · refine hpres _ ?_
    simp only [admin_delete_user_by_uuid]
    split
    · exact Or.inl rfl
    exact runOpTx_state_cases crashAt s _
  · intro hhas
    simp [create_company, hhas]
  · intro s1 j h
    have hcomp := create_company_ok_companies now newUuid s uid pid cid
      nm de dn ad ph em im s1 j h
    have hhas : s1.companies.any (fun c => c.user_uuid == uid) = true := by
      rw [hcomp]
      simp
    simp [create_company, hhas]

/-- In-first-page membership for an unsaturated result set. -/
theorem mem_page_of_mem {α : Type} (l : List α) (n : Nat) (h : l.length ≤ n)
    (a : α) (ha : a ∈ l) : a ∈ (l.drop 0).take n := by
  rw [List.drop_zero, List.take_of_length_le h]
  exact ha

/-- C4: read-your-writes through the synchronous view refresh.  A
successful router `create_company` returns only after the view refresh, so
the stored index is exactly the derived view of the post-insert state, and
a search in a supported language whose tsquery matches the new company's
indexed vector (with pagination not truncating: offset 0 and a limit at
least the match count) returns the new company.  A successful router
`delete_company` also refreshes before returning, and afterwards no search
result, for any query and language, carries the deleted company's id. -/
theorem search_read_your_writes
    (now nowDel nu : Nat) (s s' s'' : DBState) (uid pid cid coid : Nat)
    (nm de dn ad ph em im : String) (j : Option CompanyJoined) (msg : String)
    (lang query : String) (cfg : TsConfig) (qlex : List String) (limit : Nat)
    (hlang : lang = "es" ∨ lang = "en")
    (hcfg : cfg = if lang == "es" then TsConfig.spanish else TsConfig.english)
    (hqlex : qlex = toTsQueryLexemes cfg query) :
    (router_create_company now nu s uid pid cid nm de dn ad ph em im =
        (s', .ok j) →
      s'.company_search = companySearchView s' ∧
      (tsMatch (searchRowOf s'
            (⟨nu, uid, pid, cid, nm, de, dn, ad, ph, em, im, now, now⟩ :
              CompanyRow)).search_vector qlex = true →
        (s'.company_search.filter
            (fun r => tsMatch r.search_vector qlex)).length ≤ limit →
        ∃ rs, search_companies s' query lang limit 0 = .ok rs ∧
          ∃ res ∈ rs, res.uuid = nu)) ∧
    (router_delete_company nowDel s coid uid = (s'', .ok msg) →
      s''.company_search = companySearchView s'' ∧
      ∀ (query2 lang2 : String) (limit2 offset2 : Nat)
          (rs : List SearchResult),
        search_companies s'' query2 lang2 limit2 offset2 = .ok rs →
        ∀ res ∈ rs, res.uuid ≠ coid) := by
  subst hcfg
  subst hqlex
  constructor
  · intro hc
    obtain ⟨s1, hcomp, hprod, husers, hcomm, hs'⟩ :=
      router_create_company_ok now nu s uid pid cid nm de dn ad ph em im s' j hc
    subst hs'
    refine ⟨rfl, ?_⟩
    intro hq hlim
    have hql : (toTsQueryLexemes (if lang == "es" then TsConfig.spanish
        else TsConfig.english) query).isEmpty = false := by
      simp only [tsMatch, Bool.and_eq_true, Bool.not_eq_true'] at hq
      exact hq.1
    have hterms : (pySplit query).isEmpty = false := by
      cases hpe : (pySplit query).isEmpty with
      | false => rfl
      | true =>
          have hnil : pySplit query = [] := List.isEmpty_iff.mp hpe
          simp [toTsQueryLexemes, hnil] at hql
    have hok := search_companies_ok
      { s1 with company_search := companySearchView s1 }
      query lang limit 0 hlang hterms
    refine ⟨_, hok, ?_⟩
    have hsrow : searchRowOf { s1 with company_search := companySearchView s1 }
        (⟨nu, uid, pid, cid, nm, de, dn, ad, ph, em, im, now, now⟩ :
          CompanyRow) ∈
        ({ s1 with company_search := companySearchView s1 } : DBState).company_search :=
      List.mem_map.mpr ⟨_, by
        rw [hcomp]
        exact List.mem_append_right _ (List.mem_singleton_self _), rfl⟩
    have hfil : searchRowOf { s1 with company_search := companySearchView s1 }
        (⟨nu, uid, pid, cid, nm, de, dn, ad, ph, em, im, now, now⟩ :
          CompanyRow) ∈
        (({ s1 with company_search := companySearchView s1 } :
            DBState).company_search.filter
          (fun r => tsMatch r.search_vector
            (toTsQueryLexemes (if lang == "es" then TsConfig.spanish
              else TsConfig.english) query))) :=
      List.mem_filter.mpr ⟨hsrow, hq⟩
    have hmemsort := (sortDescBy_perm
      (fun (r : SearchRow) => tsRank r.search_vector
        (toTsQueryLexemes (if lang == "es" then TsConfig.spanish
          else TsConfig.english) query)) _).mem_iff.mpr hfil
    have hlen := (sortDescBy_perm
      (fun (r : SearchRow) => tsRank r.search_vector
        (toTsQueryLexemes (if lang == "es" then TsConfig.spanish
          else TsConfig.english) query))
      (({ s1 with company_search := companySearchView s1 } :
          DBState).company_search.filter
        (fun r => tsMatch r.search_vector
          (toTsQueryLexemes (if lang == "es" then TsConfig.spanish
            else TsConfig.english) query)))).length_eq
    refine ⟨_, List.mem_map.mpr ⟨_, mem_page_of_mem _ limit ?_ _ hmemsort, rfl⟩, rfl⟩
    rw [hlen]
    exact hlim
  · intro hd
    obtain ⟨s1, hno, hs''⟩ :=
      router_delete_company_ok nowDel s coid uid s'' msg hd
    subst hs''
    refine ⟨rfl, ?_⟩
    intro query2 lang2 limit2 offset2 rs hsearch res hres
    obtain ⟨rowv, hrowv, huuid⟩ :=
      search_results_from_view _ query2 lang2 limit2 offset2 rs hsearch res hres
    have hrowv' : rowv ∈ companySearchView s1 := hrowv
    obtain ⟨c, hcm, hrw⟩ := List.mem_map.mp hrowv'
    rw [huuid, ← hrw]
    exact hno c hcm

/-- Witness for C4: creating `wCompany` through the router at `wState0`
makes the English search for its user name return it; deleting it through
the router makes every later search miss id 5. -/
theorem search_read_your_writes_witness :
    (wState.company_search = companySearchView wState ∧
      ∃ rs, search_companies wState "zorbak" "en" 20 0 = .ok rs ∧
        ∃ res ∈ rs, res.uuid = 5) ∧
    ((router_delete_company 7 wState 5 10).1.company_search =
        companySearchView (router_delete_company 7 wState 5 10).1 ∧
      ∀ (query2 lang2 : String) (limit2 offset2 : Nat)
          (rs : List SearchResult),
        search_companies (router_delete_company 7 wState 5 10).1 query2 lang2
            limit2 offset2 = .ok rs →
        ∀ res ∈ rs, res.uuid ≠ 5) := by
  have hA := (search_read_your_writes 1 7 5 wState0 wState wState0 10 1 2 5
    "joes" "rico" "tasty" "addr" "123" "co@x.io" "img"
    (get_company_by_uuid wState 5) "" "en" "zorbak" TsConfig.english
    (toTsQueryLexemes TsConfig.english "zorbak") 20
    (Or.inr rfl) rfl rfl).1 rfl
  have hB := (search_read_your_writes 1 7 5 wState wState
    (router_delete_company 7 wState 5 10).1 10 1 2 5
    "joes" "rico" "tasty" "addr" "123" "co@x.io" "img" none (toString 5)
    "en" "zorbak" TsConfig.english
    (toTsQueryLexemes TsConfig.english "zorbak") 20
    (Or.inr rfl) rfl rfl).2 rfl
  exact ⟨⟨hA.1, hA.2 rfl (by decide)⟩, hB⟩

/-- C3 counterexample: the claim says user name/email text can never match
an English-language query, but at `wState` the English search for the user
name token returns the company: the view stores a single combined vector,
and the token comes only from its Spanish-built half. -/
theorem english_search_matches_user_name :
    search_companies wState "zorbak" "en" 20 0 =
      .ok [⟨5, "joes", "tasty", "addr", "co@x.io", "bread", "springfield", 1⟩] ∧
    (toTsVector .english (englishDoc wCompany (some wProduct))).contains
      "zorbak" = false ∧
    (toTsVector .spanish (spanishDoc wCompany (some wProduct) (some wUser)
      (some wCommune))).contains "zorbak" = true :=
  ⟨rfl, rfl, rfl⟩

/-- C3 (amended): each Search Index row holds a single combined
tokenized-text vector -- the concatenation of a Spanish-config vector
built from company name, Spanish description, Spanish product name,
commune name, user name and user email with an English-config vector
built from company name, English description and English product name --
and search matches the requested-language-parsed query against this
combined vector, so Spanish-side text such as user name or email can also
match an English-language query. -/
theorem search_vector_is_single_combined_column
    (s : DBState) (c : CompanyRow) (qlex : List String) :
    (searchRowOf s c).search_vector =
      toTsVector .spanish
        (spanishDoc c (s.products.find? (fun r => r.uuid == c.product_uuid))
          (s.users.find? (fun r => r.uuid == c.user_uuid))
          (s.communes.find? (fun r => r.uuid == c.commune_uuid))) ++
      toTsVector .english
        (englishDoc c (s.products.find? (fun r => r.uuid == c.product_uuid))) ∧
    (tsMatch (searchRowOf s c).search_vector qlex = true ↔
      qlex ≠ [] ∧ ∀ t ∈ qlex,
        t ∈ toTsVector .spanish
          (spanishDoc c (s.products.find? (fun r => r.uuid == c.product_uuid))
            (s.users.find? (fun r => r.uuid == c.user_uuid))
            (s.communes.find? (fun r => r.uuid == c.commune_uuid))) ∨
        t ∈ toTsVector .english
          (englishDoc c (s.products.find? (fun r => r.uuid == c.product_uuid)))) := by
  exact ⟨rfl, tsMatch_append_iff _ _ qlex⟩

/-- C8: a successful search for a supported language used the tsquery
built by AND-joining the whitespace-split terms of the query string under
the ruleset selected by the language (`es` gives Spanish, anything else
English), kept exactly the stored view rows matching every term, ordered
them descending by the rank value, applied offset and limit to that
ordering, and every returned row matches all terms. -/
theorem search_query_pipeline
    (s : DBState) (query lang : String) (limit offset : Nat)
    (cfg : TsConfig) (qlex : List String) (rs : List SearchResult)
    (hlang : lang = "es" ∨ lang = "en")
    (hcfg : cfg = if lang == "es" then TsConfig.spanish else TsConfig.english)
    (hqlex : qlex = toTsQueryLexemes cfg query)
    (h : search_companies s query lang limit offset = .ok rs) :
    (pySplit query ≠ [] ∧
      qlex = (pySplit query).filterMap (tsLexize cfg)) ∧
    rs = ((((sortDescBy (fun r => tsRank r.search_vector qlex)
        (s.company_search.filter
          (fun r => tsMatch r.search_vector qlex))).drop offset).take limit).map
      (searchResultOf lang qlex)) ∧
    List.Sorted (fun a b => b.relevance_score ≤ a.relevance_score) rs ∧
    (∀ res ∈ rs, ∃ row ∈ s.company_search,
      res.uuid = row.company_id ∧ tsMatch row.search_vector qlex = true) := by
  subst hcfg
  subst hqlex
  have hterms : (pySplit query).isEmpty = false := by
    cases hie : (pySplit query).isEmpty with
    | false => rfl
    | true => simp [search_companies, hie] at h
  have hok := search_companies_ok s query lang limit offset hlang hterms
  rw [h] at hok
  have hrs := Except.ok.inj hok
  refine ⟨⟨?_, rfl⟩, hrs, ?_, ?_⟩
  · intro hnil
    rw [hnil] at hterms
    simp at hterms
  · rw [hrs]
    refine List.pairwise_map.mpr ?_
    exact (search_page_sorted _ _ _ _).imp (fun hab => hab)
  · intro res hres
    rw [hrs] at hres
    obtain ⟨row, hrow, hfrow⟩ := List.mem_map.mp hres
    have h1 := List.take_subset _ _ hrow
    have h2 := List.drop_subset _ _ h1
    have h3 := (sortDescBy_perm _ _).mem_iff.mp h2
    have h4 := List.mem_filter.mp h3
    refine ⟨row, h4.1, ?_, h4.2⟩
    rw [← hfrow]
    rfl

/-- Witness for C8: the concrete English search for "bread" at `wState`. -/
theorem search_query_pipeline_witness :
    pySplit "bread" ≠ [] ∧
    List.Sorted (fun a b => b.relevance_score ≤ a.relevance_score)
      [(⟨5, "joes", "tasty", "addr", "co@x.io", "bread", "springfield", 1⟩ :
        SearchResult)] ∧
    ∀ res ∈ [(⟨5, "joes", "tasty", "addr", "co@x.io", "bread", "springfield",
        1⟩ : SearchResult)],
      ∃ row ∈ wState.company_search, res.uuid = row.company_id ∧
        tsMatch row.search_vector
          (toTsQueryLexemes TsConfig.english "bread") = true := by
  have h := search_query_pipeline wState "bread" "en" 20 0 TsConfig.english
    (toTsQueryLexemes TsConfig.english "bread")
    [⟨5, "joes", "tasty", "addr", "co@x.io", "bread", "springfield", 1⟩]
    (Or.inr rfl) rfl rfl rfl
  exact ⟨h.1.1, h.2.2.1, h.2.2.2⟩

/-- Witness for C6: at a concrete state where `wUser` already owns company
5, a create for owner 10 fails with the conflict error and changes
nothing, and the invariant is preserved by a delete. -/
theorem one_company_per_user_invariant_witness :
    (wState.companies.any (fun c => c.user_uuid == 10) = true →
      create_company none 8 9 wState 10 1 2 "x" "a" "b" "c" "d" "e" "f" =
        (wState, .error (.valueError alreadyHasCompanyMsg))) ∧
    OneCompanyPerUser (delete_company_by_uuid none 8 wState 5 10).1 := by
  have h := one_company_per_user_invariant none 8 9 8 9 "a@b.c" "a@b.c"
    wState 10 1 2 5 "x" "a" "b" "c" "d" "e" "f"
    (List.pairwise_singleton _ _)
  exact ⟨h.2.2.2.2.2.2.1, h.2.2.1⟩

end PortfolioBackend
